import Mathlib

/-!
Verification of the grammar-source parser (`GrammarParser.cpp`) and the
LALR item data structure (`Item.cpp`) of the sweet_parser repository.

The parser object state (`position_`/`end_`, `line_`, `lexeme_`, `errors_`)
is embedded as an explicit record `PState`; the unread input is kept as a
character-list suffix `rest` (the pair `position_`/`end_` of the C++ code),
so advancing the position is dropping characters from `rest`.  Calls to the
grammar-builder collaborator are recorded in order in `events`, calls to the
error collaborator in `errors` (so `errors.length` is the C++ `errors_`
counter).  Each C++ member function `match_*` becomes a function
`PState → Bool × PState`.  While loops of the C++ code become fuel-indexed
structural recursions; the fuel passed at every use is `rest.length + 1`,
which is sufficient because every iteration of each of those loops consumes
at least one input character.
-/

/-- Character class of the C `isspace` predicate (C locale, ASCII). -/
def c_isspace (c : Char) : Bool :=
  c = ' ' || c = '\t' || c = '\n' || c = '\x0b' || c = '\x0c' || c = '\r'

/-- Character class of the C `isdigit` predicate (ASCII). -/
def c_isdigit (c : Char) : Bool :=
  '0' ≤ c && c ≤ '9'

/-- Character class of the C `isalpha` predicate (C locale, ASCII). -/
def c_isalpha (c : Char) : Bool :=
  ('A' ≤ c && c ≤ 'Z') || ('a' ≤ c && c ≤ 'z')

/-- Character class of the C `isalnum` predicate (C locale, ASCII). -/
def c_isalnum (c : Char) : Bool :=
  c_isalpha c || c_isdigit c

/-- The `GrammarParser::is_newline` predicate. -/
def is_newline (c : Char) : Bool :=
  c = '\n' || c = '\r'

/-- Error codes reported to the error collaborator by the grammar parser:
`LALR_ERROR_SYNTAX` and `LALR_ERROR_UNTERMINATED_LITERAL`. -/
inductive ErrorCode where
  | syntaxError
  | unterminatedLiteral
  deriving DecidableEq, Repr

/-- One call to the error collaborator: line, column, error code and, for
the errors raised by `expect`, the missing lexeme (the format argument of
the C++ printf-style message). -/
structure Err where
  line : Nat
  column : Nat
  code : ErrorCode
  note : List Char
  deriving DecidableEq, Repr

/-- One call to the grammar-builder collaborator, in the order the C++
parser performs them.  Lexemes are recorded as character lists. -/
inductive GEvent where
  | grammarName (s : List Char)
  | production (s : List Char) (line : Nat)
  | endProduction
  | endExpression (line : Nat)
  | identifier (s : List Char) (line : Nat)
  | literal (s : List Char) (line : Nat)
  | regex (s : List Char) (line : Nat)
  | left (line : Nat)
  | right (line : Nat)
  | none (line : Nat)
  | whitespace
  | precedence
  | action (s : List Char) (line : Nat)
  | errorSymbol (line : Nat)
  deriving DecidableEq, Repr

/-- The mutable state of a `GrammarParser` object: the unread input
(`position_`/`end_`), the current line, the last scanned lexeme, and the
histories of error-collaborator and grammar-builder calls. -/
structure PState where
  rest : List Char
  line : Nat
  lexeme : List Char
  errors : List Err
  events : List GEvent
  deriving DecidableEq, Repr

/-- Record a grammar-builder call. -/
def emit (e : GEvent) (s : PState) : PState :=
  { s with events := s.events ++ [e] }

/-- The `GrammarParser::error` member: count the error and report it to the
error collaborator. -/
def reportError (line column : Nat) (code : ErrorCode) (note : List Char) (s : PState) : PState :=
  { s with errors := s.errors ++ [⟨line, column, code, note⟩] }

/-- The scanning loop of `GrammarParser::match_whitespace`: consume
characters while `isspace`; every `\n` or `\r` consumed increments the line
counter (the C++ `newline` flag is reset at the end of every iteration, so
its guard is always passed). -/
def skipWhitespace : List Char → Nat → List Char × Nat
  | [], line => ([], line)
  | c :: cs, line =>
    if c_isspace c then
      skipWhitespace cs (if c = '\n' || c = '\r' then line + 1 else line)
    else (c :: cs, line)

/-- The first scanning loop of `GrammarParser::match_line_comment`: consume
characters up to and including the first `\n` or `\r`. -/
def skipToAfterNewline : List Char → List Char
  | [] => []
  | c :: cs => if c = '\n' || c = '\r' then cs else skipToAfterNewline cs

/-- The tail block of `GrammarParser::match_line_comment`: after the loop,
if the next character is `\n` it is consumed together with a following
`\r`, and symmetrically for `\r`. -/
def lineCommentExtra : List Char → List Char
  | [] => []
  | c :: cs =>
    if c = '\n' then
      match cs with
      | d :: ds => if d = '\r' then ds else cs
      | [] => cs
    else if c = '\r' then
      match cs with
      | d :: ds => if d = '\n' then ds else cs
      | [] => cs
    else c :: cs

/-- The scanning loop of `GrammarParser::match_block_comment`.  On seeing a
`*` the position is advanced, `done` is set when the character now under
the cursor is `/`, and the position is advanced once more — so that second
character is consumed whether or not it closed the comment.  (When the `*`
is the final character the C++ code walks past `end_`; the embedding stops
at the end of the list.) -/
def skipBlockComment : List Char → List Char
  | [] => []
  | c :: cs =>
    if c = '*' then
      match cs with
      | [] => []
      | d :: ds => if d = '/' then ds else skipBlockComment ds
    else skipBlockComment cs

/-- The scanning loop of `GrammarParser::match_literal`: consume characters
while the end is not reached, the character is not an unescaped quote, and
it is not a newline; `escaped` records whether the previous consumed
character was a backslash.  Returns the consumed characters and the
remaining input. -/
def scanLiteral : List Char → Bool → List Char × List Char
  | [], _ => ([], [])
  | c :: cs, escaped =>
    if (c ≠ '\'' || escaped) && !is_newline c then
      let r := scanLiteral cs (c = '\\')
      (c :: r.1, r.2)
    else ([], c :: cs)

/-- The scanning loop of `GrammarParser::match_regex`: consume characters
while the end is not reached and the character is not an unescaped double
quote; newlines do not stop the scan. -/
def scanRegex : List Char → Bool → List Char × List Char
  | [], _ => ([], [])
  | c :: cs, escaped =>
    if (c ≠ '"' || escaped) then
      let r := scanRegex cs (c = '\\')
      (c :: r.1, r.2)
    else ([], c :: cs)

/-- The continuation loop of `GrammarParser::match_identifier`: consume
characters while `isalnum(c) || isdigit(c) || c == '_'` (the `isdigit` test
is redundant after `isalnum`, as in the source). -/
def scanIdentTail : List Char → List Char × List Char
  | [] => ([], [])
  | c :: cs =>
    if c_isalnum c || c_isdigit c || c = '_' then
      let r := scanIdentTail cs
      (c :: r.1, r.2)
    else ([], c :: cs)

/-- The `GrammarParser::match_without_skipping_whitespace` member: succeed
and consume `kw` exactly when `kw` is a prefix of the unread input. -/
def match_without_skipping_whitespace (kw : List Char) (s : PState) : Bool × PState :=
  if kw.isPrefixOf s.rest then (true, { s with rest := s.rest.drop kw.length })
  else (false, s)

/-- The `GrammarParser::match_whitespace` member. -/
def match_whitespace (s : PState) : Bool × PState :=
  match s.rest with
  | c :: _ =>
    if c_isspace c then
      let r := skipWhitespace s.rest s.line
      (true, { s with rest := r.1, line := r.2 })
    else (false, s)
  | [] => (false, s)

/-- The `GrammarParser::match_line_comment` member. -/
def match_line_comment (s : PState) : Bool × PState :=
  let r := match_without_skipping_whitespace ['/', '/'] s
  if r.1 then (true, { r.2 with rest := lineCommentExtra (skipToAfterNewline r.2.rest) })
  else (false, s)

/-- The `GrammarParser::match_block_comment` member. -/
def match_block_comment (s : PState) : Bool × PState :=
  let r := match_without_skipping_whitespace ['/', '*'] s
  if r.1 then (true, { r.2 with rest := skipBlockComment r.2.rest })
  else (false, s)

/-- The loop of `GrammarParser::match_whitespace_and_comments`, indexed by
fuel.  Each successful iteration consumes at least one character, so fuel
`rest.length + 1` never runs out. -/
def wscAux : Nat → PState → PState
  | 0, s => s
  | fuel + 1, s =>
    let r1 := match_whitespace s
    if r1.1 then wscAux fuel r1.2
    else
      let r2 := match_line_comment s
      if r2.1 then wscAux fuel r2.2
      else
        let r3 := match_block_comment s
        if r3.1 then wscAux fuel r3.2
        else s

/-- The `GrammarParser::match_whitespace_and_comments` member (it always
returns true in the source, so only the state is returned here). -/
def match_whitespace_and_comments (s : PState) : PState :=
  wscAux (s.rest.length + 1) s

/-- The `GrammarParser::match` member: skip whitespace and comments, then
match the keyword. -/
def match_keyword (kw : List Char) (s : PState) : Bool × PState :=
  match_without_skipping_whitespace kw (match_whitespace_and_comments s)

/-- The `GrammarParser::expect` member: on failure the position is set to
the end of input and a syntax error naming the missing lexeme is
reported. -/
def expect (kw : List Char) (s : PState) : Bool × PState :=
  let r := match_keyword kw s
  if r.1 then (true, r.2)
  else (false, reportError r.2.line 0 ErrorCode.syntaxError kw { r.2 with rest := [] })

/-- The `GrammarParser::match_end` member. -/
def match_end (s : PState) : Bool × PState :=
  let s1 := match_whitespace_and_comments s
  (s1.rest.isEmpty, s1)

/-- The `GrammarParser::match_error` member. -/
def match_error (s : PState) : Bool × PState :=
  match_keyword ['e', 'r', 'r', 'o', 'r'] s

/-- The `GrammarParser::match_literal` member.  After the opening quote the
body is scanned; if the scan stopped at the end of input or at an unescaped
quote the lexeme is taken, the closing quote is `expect`ed, and the match
succeeds (even when `expect` fails at end of input); if the scan stopped at
a newline an `unterminated literal` error is reported and the position is
left just after the opening quote. -/
def match_literal (s : PState) : Bool × PState :=
  let s0 := match_whitespace_and_comments s
  let r := match_without_skipping_whitespace ['\''] s0
  if r.1 then
    let sc := scanLiteral r.2.rest false
    if (match sc.2 with | [] => true | c :: _ => !is_newline c) then
      let s2 := { r.2 with lexeme := sc.1, rest := sc.2 }
      (true, (expect ['\''] s2).2)
    else
      (false, reportError r.2.line 0 ErrorCode.unterminatedLiteral
        ['l', 'i', 't', 'e', 'r', 'a', 'l'] r.2)
  else (false, s0)

/-- The `GrammarParser::match_regex` member: after the opening double quote
the body is scanned (across newlines), the lexeme is taken and the closing
double quote is `expect`ed; the match succeeds in every case. -/
def match_regex (s : PState) : Bool × PState :=
  let s0 := match_whitespace_and_comments s
  let r := match_without_skipping_whitespace ['"'] s0
  if r.1 then
    let sc := scanRegex r.2.rest false
    let s2 := { r.2 with lexeme := sc.1, rest := sc.2 }
    (true, (expect ['"'] s2).2)
  else (false, s0)

/-- The `GrammarParser::match_identifier` member.  The first character is
accepted when `isalnum(c) || c == '_'` (as in the source), subsequent
characters by `scanIdentTail`. -/
def match_identifier (s : PState) : Bool × PState :=
  let s0 := match_whitespace_and_comments s
  match s0.rest with
  | c :: cs =>
    if c_isalnum c || c = '_' then
      let r := scanIdentTail cs
      (true, { s0 with lexeme := c :: r.1, rest := r.2 })
    else (false, s0)
  | [] => (false, s0)

/-- The `GrammarParser::match_associativity` member: try `%left`, `%right`,
`%none` in turn, emitting the corresponding grammar-builder call. -/
def match_associativity (s : PState) : Bool × PState :=
  let r1 := match_keyword ['%', 'l', 'e', 'f', 't'] s
  if r1.1 then (true, emit (GEvent.left r1.2.line) r1.2)
  else
    let r2 := match_keyword ['%', 'r', 'i', 'g', 'h', 't'] r1.2
    if r2.1 then (true, emit (GEvent.right r2.2.line) r2.2)
    else
      let r3 := match_keyword ['%', 'n', 'o', 'n', 'e'] r2.2
      if r3.1 then (true, emit (GEvent.none r3.2.line) r3.2)
      else (false, r3.2)

/-- The `GrammarParser::match_symbol` member: `error`, then literal, then
regex, then identifier. -/
def match_symbol (s : PState) : Bool × PState :=
  let r1 := match_error s
  if r1.1 then (true, emit (GEvent.errorSymbol r1.2.line) r1.2)
  else
    let r2 := match_literal r1.2
    if r2.1 then (true, emit (GEvent.literal r2.2.lexeme r2.2.line) r2.2)
    else
      let r3 := match_regex r2.2
      if r3.1 then (true, emit (GEvent.regex r3.2.lexeme r3.2.line) r3.2)
      else
        let r4 := match_identifier r3.2
        if r4.1 then (true, emit (GEvent.identifier r4.2.lexeme r4.2.line) r4.2)
        else (false, r4.2)

/-- The loop of `GrammarParser::match_symbols`, indexed by fuel; every
successful `match_symbol` consumes at least one character. -/
def matchSymbolsAux : Nat → PState → PState
  | 0, s => s
  | fuel + 1, s =>
    let r := match_symbol s
    if r.1 then matchSymbolsAux fuel r.2 else r.2

/-- The `GrammarParser::match_symbols` member (always true in the source). -/
def match_symbols (s : PState) : PState :=
  matchSymbolsAux (s.rest.length + 1) s

/-- The `GrammarParser::match_precedence` member. -/
def match_precedence (s : PState) : Bool × PState :=
  let r := match_keyword ['%', 'p', 'r', 'e', 'c', 'e', 'd', 'e', 'n', 'c', 'e'] s
  if r.1 then (true, (match_symbol (emit GEvent.precedence r.2)).2)
  else (false, r.2)

/-- The `GrammarParser::match_action` member: on `[` an optional identifier
is taken as the action and `]` is expected; without `[` the current
expression is ended and the match fails. -/
def match_action (s : PState) : Bool × PState :=
  let r := match_keyword ['['] s
  if r.1 then
    let r2 := match_identifier r.2
    let s3 := if r2.1 then emit (GEvent.action r2.2.lexeme r2.2.line) r2.2 else r2.2
    (true, (expect [']'] s3).2)
  else (false, emit (GEvent.endExpression r.2.line) r.2)

/-- The `GrammarParser::match_expression` member (always true in the
source). -/
def match_expression (s : PState) : PState :=
  (match_action (match_precedence (match_symbols s)).2).2

/-- The loop of `GrammarParser::match_expressions`, indexed by fuel; every
iteration consumes the `|`. -/
def matchExpressionsAux : Nat → PState → PState
  | 0, s => s
  | fuel + 1, s =>
    let r := match_keyword ['|'] s
    if r.1 then matchExpressionsAux fuel (match_expression r.2) else r.2

/-- The `GrammarParser::match_expressions` member (always true in the
source): one expression, then further expressions after `|`s. -/
def match_expressions (s : PState) : PState :=
  let s1 := match_expression s
  matchExpressionsAux (s1.rest.length + 1) s1

/-- The `GrammarParser::match_associativity_statement` member. -/
def match_associativity_statement (s : PState) : Bool × PState :=
  let r := match_associativity s
  if r.1 then (true, (expect [';'] (match_symbols r.2)).2)
  else (false, r.2)

/-- The `GrammarParser::match_whitespace_statement` member. -/
def match_whitespace_statement (s : PState) : Bool × PState :=
  let r := match_keyword ['%', 'w', 'h', 'i', 't', 'e', 's', 'p', 'a', 'c', 'e'] s
  if r.1 then
    let s1 := emit GEvent.whitespace r.2
    let r2 := match_regex s1
    let s2 := if r2.1 then emit (GEvent.regex r2.2.lexeme r2.2.line) r2.2 else r2.2
    (true, (expect [';'] s2).2)
  else (false, r.2)

/-- The `GrammarParser::match_production_statement` member. -/
def match_production_statement (s : PState) : Bool × PState :=
  let r := match_identifier s
  if r.1 then
    let s1 := emit (GEvent.production r.2.lexeme r.2.line) r.2
    let s2 := match_expressions (expect [':'] s1).2
    (true, emit GEvent.endProduction (expect [';'] s2).2)
  else (false, r.2)

/-- The `GrammarParser::match_statement` member. -/
def match_statement (s : PState) : Bool × PState :=
  let r1 := match_associativity_statement s
  if r1.1 then (true, r1.2)
  else
    let r2 := match_whitespace_statement r1.2
    if r2.1 then (true, r2.2)
    else match_production_statement r2.2

/-- The loop of `GrammarParser::match_statements`, indexed by fuel; every
successful `match_statement` consumes at least one character. -/
def matchStatementsAux : Nat → PState → PState
  | 0, s => s
  | fuel + 1, s =>
    let r := match_statement s
    if r.1 then matchStatementsAux fuel r.2 else r.2

/-- The `GrammarParser::match_statements` member (always true in the
source). -/
def match_statements (s : PState) : PState :=
  matchStatementsAux (s.rest.length + 1) s

/-- The `GrammarParser::match_grammar` member. -/
def match_grammar (s : PState) : Bool × PState :=
  let r := match_identifier s
  if r.1 then
    let s1 := emit (GEvent.grammarName r.2.lexeme) r.2
    let s2 := match_statements (expect ['{'] s1).2
    match_end (expect ['}'] s2).2
  else (false, r.2)

/-- The `GrammarParser::parse` member: the position, line counter and error
counter are reset at entry (the `lexeme_` buffer is the only member carried
over from an earlier parse, so it is the extra parameter here); on failure
of `match_grammar` a final syntax error is reported.  Returns the error
count (the C++ return value) and the final state. -/
def parse (input : List Char) (lexeme0 : List Char) : Nat × PState :=
  let s0 : PState := { rest := input, line := 1, lexeme := lexeme0, errors := [], events := [] }
  let r := match_grammar s0
  let s1 := if r.1 then r.2
    else reportError 1 0 ErrorCode.syntaxError ['g', 'r', 'a', 'm', 'm', 'a', 'r'] r.2
  (s1.errors.length, s1)

/-- A production as seen by `Item.cpp`: its stable index and the indices of
the symbols of its body (`Production::length()` is the body length). -/
structure Production where
  prodIndex : Nat
  body : List Nat
  deriving DecidableEq, Repr

/-- The `Production::length` member. -/
def Production.length (p : Production) : Nat :=
  p.body.length

/-- An LALR item of `Item.cpp`: a production pointer (nullable, as for the
default-constructed item), the dot position (an `int` in the source), and
the mutable lookahead set (symbols are identified by their indices). -/
structure Item where
  production : Option Production
  position : Int
  lookahead_symbols : Finset Nat
  deriving DecidableEq

/-- The default constructor `Item::Item()`: null production, position 0,
empty lookahead set. -/
def Item.default : Item :=
  { production := Option.none, position := 0, lookahead_symbols := ∅ }

/-- The checked constructor `Item::Item(Production*, int)`.  Its assertions
`production_` and `position_ >= 0 && position_ < production_->length() + 1`
are modelled by returning `some` exactly when they hold. -/
def Item.make (production : Option Production) (position : Int) : Option Item :=
  match production with
  | Option.none => Option.none
  | Option.some p =>
    if 0 ≤ position ∧ position < (p.length : Int) + 1 then
      Option.some { production := Option.some p, position := position, lookahead_symbols := ∅ }
    else Option.none

/-- The `Item::dot_at_beginning` member. -/
def Item.dot_at_beginning (it : Item) : Bool :=
  it.position = 0

/-- The `Item::add_lookahead_symbols` member: insert the given symbols into
the lookahead set and return `size() - original_size`, the number of
symbols that were new. -/
def Item.add_lookahead_symbols (it : Item) (las : Finset Nat) : Item × Nat :=
  ({ it with lookahead_symbols := it.lookahead_symbols ∪ las },
   (it.lookahead_symbols ∪ las).card - it.lookahead_symbols.card)

/-- Dot-position invariant of an item over a production `p`:
`0 ≤ dot-position ≤ |body|`. -/
def Item.wf (it : Item) (p : Production) : Prop :=
  0 ≤ it.position ∧ it.position ≤ (p.length : Int)

/-- Whether the character of `cs` at index `j` counts as escaped in the
literal/regex scanning loops: the flag the loop carries at index `j` is
`e0` for the first character and otherwise records whether the previous
character was a backslash. -/
def escapedAt (e0 : Bool) (cs : List Char) (j : Nat) : Bool :=
  match j with
  | 0 => e0
  | j' + 1 => cs.getD j' ' ' = '\\'

/-- The character of `cs` at index `j` is an unescaped single quote, i.e.
the one that stops the literal scanning loop as a closing quote. -/
def closesLiteral (e0 : Bool) (cs : List Char) (j : Nat) : Bool :=
  (cs.getD j ' ' = '\'') && !escapedAt e0 cs j

/-- The character of `cs` at index `j` is an unescaped double quote, i.e.
the one that stops the regex scanning loop as a closing quote. -/
def closesRegex (e0 : Bool) (cs : List Char) (j : Nat) : Bool :=
  (cs.getD j ' ' = '"') && !escapedAt e0 cs j

/-- Two parser states that agree on everything except the `lexeme_`
buffer (the one member that `GrammarParser::parse` does not reset). -/
def LexRel (s t : PState) : Prop :=
  s.rest = t.rest ∧ s.line = t.line ∧ s.errors = t.errors ∧ s.events = t.events

/-- Lifting of `LexRel` to the `Bool × PState` results of the matchers. -/
def LexRelB (p q : Bool × PState) : Prop :=
  p.1 = q.1 ∧ LexRel p.2 q.2

/-- Concrete production and item used by witnesses. -/
def prodEx : Production :=
  { prodIndex := 0, body := [1, 2] }

/-- Concrete item used by witnesses: dot position 1 inside `prodEx`. -/
def itemEx : Item :=
  { production := Option.some prodEx, position := 1, lookahead_symbols := ∅ }

/-- Modelled from the spec: associativity of a precedence level (spec
section 3); the generator sources are not under src/. -/
inductive SAssoc where
  | anone
  | aleft
  | aright
  deriving DecidableEq, Repr

/-- Modelled from the spec: the lexeme kind of a symbol (spec section 3):
null, literal, or regular expression. -/
inductive SLex where
  | lnull
  | lliteral
  | lregex
  deriving DecidableEq, Repr

/-- Modelled from the spec: a reference to a symbol in a declaration or a
production body, as produced by the builder events `identifier`,
`literal` and `regex` (spec section 4.A). -/
structure SRef where
  name : String
  lex : SLex
  deriving DecidableEq, Repr

/-- Modelled from the spec: one precedence-level declaration
(`%left`/`%right`/`%none` followed by symbols, spec section 4.A). -/
structure SPrecDecl where
  assoc : SAssoc
  syms : List SRef
  deriving DecidableEq, Repr

/-- Modelled from the spec: one production alternative with its optional
`%precedence` override symbol (spec sections 3 and 4.A). -/
structure SAlt where
  head : String
  body : List SRef
  precSym : Option SRef
  deriving DecidableEq, Repr

/-- Modelled from the spec: a grammar as assembled by the builder before
finalization (spec section 4.A). -/
structure SRaw where
  decls : List SPrecDecl
  prods : List SAlt
  deriving DecidableEq, Repr

/-- Modelled from the spec: a finalized symbol with its dense index given
by its position in the symbol table (spec section 3). -/
structure SSym where
  name : String
  terminal : Bool
  lex : SLex
  prec : Nat
  assoc : SAssoc
  deriving DecidableEq, Repr

/-- Modelled from the spec: a finalized production: head index, body
indices, optional precedence-override symbol index (spec section 3). -/
structure SRule where
  head : Nat
  body : List Nat
  precSym : Option Nat
  deriving DecidableEq, Repr

/-- Modelled from the spec: the finalized grammar handed to the item-set
constructor (spec section 4.A): symbol table, production table (production
0 is the augmented start production), end-of-input index. -/
structure SGrammar where
  syms : List SSym
  prods : List SRule
  eoi : Nat
  deriving DecidableEq, Repr

/-- Placeholder symbol used as the default of list lookups. -/
def dummySym : SSym :=
  { name := "", terminal := true, lex := SLex.lnull, prec := 0, assoc := SAssoc.anone }

/-- Placeholder production used as the default of list lookups. -/
def dummyProd : SRule :=
  { head := 0, body := [], precSym := Option.none }

/-- Concatenate a list of lists. -/
def concatAll {α : Type} (ls : List (List α)) : List α :=
  ls.foldr (fun a b => a ++ b) []

/-- Modelled from the spec: all symbol references of a raw grammar in
order of appearance (declarations first, then production heads, bodies and
precedence overrides). -/
def allRefs (raw : SRaw) : List SRef :=
  concatAll (raw.decls.map (fun d => d.syms)) ++
  concatAll (raw.prods.map (fun a =>
    SRef.mk a.head SLex.lnull :: a.body ++
      (match a.precSym with | Option.some r => [r] | Option.none => [])))

/-- Keep the first mention of every name. -/
def insertRef (acc : List SRef) (r : SRef) : List SRef :=
  if acc.any (fun x => x.name = r.name) then acc else acc ++ [r]

/-- Modelled from the spec: the distinct symbols of a raw grammar, in
order of first appearance, with the lexeme kind of their first mention. -/
def collectRefs (raw : SRaw) : List SRef :=
  (allRefs raw).foldl insertRef []

/-- Modelled from the spec: the precedence level (numbered from 1 in
declaration order) and associativity of a named symbol; 0 and none when
the name is never declared (spec section 4.A). -/
def findPrec : List SPrecDecl → Nat → String → Nat × SAssoc
  | [], _, _ => (0, SAssoc.anone)
  | d :: ds, i, n =>
    if d.syms.any (fun r => r.name = n) then (i + 1, d.assoc)
    else findPrec ds (i + 1) n

/-- Modelled from the spec (section 4.A, finalization steps 2 and 4): the
symbol table.  A symbol is a non-terminal exactly when it heads a
production and its lexeme kind is null; the table is ordered with the
augmented start symbol first, then the non-terminals in order of
appearance, then the end-of-input and error symbols, then the terminals in
order of appearance. -/
def finalizeSyms (raw : SRaw) : List SSym :=
  let refs := collectRefs raw
  let heads := raw.prods.map (fun a => a.head)
  let isNt := fun (r : SRef) => decide (heads.contains r.name) && (r.lex == SLex.lnull)
  let nts := refs.filter isNt
  let ts := refs.filter (fun r => !(isNt r))
  let mk := fun (term : Bool) (r : SRef) =>
    let pa := findPrec raw.decls 0 r.name
    { name := r.name, terminal := term, lex := r.lex, prec := pa.1, assoc := pa.2 : SSym }
  { name := "(start)", terminal := false, lex := SLex.lnull, prec := 0, assoc := SAssoc.anone } ::
    (nts.map (mk false) ++
      ({ name := "(eoi)", terminal := true, lex := SLex.lnull, prec := 0, assoc := SAssoc.anone } ::
       { name := "error", terminal := true, lex := SLex.lnull, prec := 0, assoc := SAssoc.anone } ::
       ts.map (mk true)))

/-- Index of a named symbol in the symbol table. -/
def symIndex (syms : List SSym) (n : String) : Nat :=
  syms.findIdx (fun s => s.name == n)

/-- Modelled from the spec (section 4.A, finalization step 3): the
finalized grammar, with the augmented start production `S' -> S $` (S the
head of the first production) at index 0 followed by the declared
productions in order. -/
def finalize (raw : SRaw) : SGrammar :=
  let syms := finalizeSyms raw
  let eoi := symIndex syms "(eoi)"
  let start :=
    match raw.prods with
    | [] => 0
    | a :: _ => symIndex syms a.head
  let prods :=
    { head := 0, body := [start, eoi], precSym := Option.none } ::
      raw.prods.map (fun a =>
        { head := symIndex syms a.head,
          body := a.body.map (fun r => symIndex syms r.name),
          precSym := a.precSym.map (fun r => symIndex syms r.name) : SRule })
  { syms := syms, prods := prods, eoi := eoi }

/-- Modelled from the spec (section 4.A, step 1 / section 7): the
undefined-symbol errors of a finalized grammar: terminals other than the
built-in end-of-input and error symbols that have no literal or regex
lexeme cannot be produced by the lexer and are reported as undefined. -/
def undefinedSymbolErrors (g : SGrammar) : Nat :=
  (g.syms.filter (fun s =>
    s.terminal && (s.lex == SLex.lnull) && !(s.name == "(eoi)") && !(s.name == "error") &&
      !(s.name == "(start)"))).length

/-- Add an element to a list-as-set. -/
def addElem (l : List Nat) (x : Nat) : List Nat :=
  if l.contains x then l else l ++ [x]

/-- Union of two lists-as-sets. -/
def unionL (a b : List Nat) : List Nat :=
  b.foldl addElem a

/-- Modelled from the spec (section 5): run a fixed-point computation: the
step function is applied until its result stabilizes (the sets involved
grow monotonically and are bounded, so the fuel, a bound on the number of
growing rounds, is never exhausted). -/
def iterateFix {α : Type} [DecidableEq α] (f : α → α) : Nat → α → α
  | 0, a => a
  | n + 1, a =>
    let b := f a
    if b = a then a else iterateFix f n b

/-- Modelled from the spec (section 4.C): FIRST of a symbol sequence given
current FIRST sets and epsilon flags of the single symbols; the Bool says
whether the whole sequence can derive epsilon. -/
def firstSeq (fs : List (List Nat)) (eps : List Bool) : List Nat → List Nat × Bool
  | [] => ([], true)
  | j :: rest =>
    let fj := fs.getD j []
    if eps.getD j false then
      let r := firstSeq fs eps rest
      (unionL fj r.1, r.2)
    else (fj, false)

/-- Modelled from the spec (section 4.C): one round of the FIRST-set
fixed-point computation. -/
def firstStep (g : SGrammar) (st : List (List Nat) × List Bool) :
    List (List Nat) × List Bool :=
  let n := g.syms.length
  ((List.range n).map (fun i =>
      if (g.syms.getD i dummySym).terminal then [i]
      else g.prods.foldl (fun acc p =>
        if p.head = i then unionL acc (firstSeq st.1 st.2 p.body).1 else acc) (st.1.getD i [])),
   (List.range n).map (fun i =>
      if (g.syms.getD i dummySym).terminal then false
      else g.prods.foldl (fun acc p =>
        if p.head = i && (firstSeq st.1 st.2 p.body).2 then true else acc) (st.2.getD i false)))

/-- Modelled from the spec (section 4.C): the FIRST sets and epsilon flags
of all symbols, by fixed-point iteration (the sets grow monotonically and
are bounded, so enough rounds reach the fixed point). -/
def firstSets (g : SGrammar) : List (List Nat) × List Bool :=
  let n := g.syms.length
  iterateFix (firstStep g) (n * n + n + 2)
    ((List.range n).map (fun _ => []), (List.range n).map (fun _ => false))

/-- Ordering of LR(0) items (production index, then dot position). -/
def itemLe (a b : Nat × Nat) : Bool :=
  a.1 < b.1 || (a.1 == b.1 && a.2 ≤ b.2)

/-- Sorted duplicate-free insertion of an LR(0) item, canonicalizing item
sets so that equal kernels are syntactically equal. -/
def insItem : List (Nat × Nat) → Nat × Nat → List (Nat × Nat)
  | [], x => [x]
  | y :: ys, x =>
    if x = y then y :: ys
    else if itemLe x y then x :: y :: ys
    else y :: insItem ys x

/-- The symbol after the dot of an LR(0) item, if any. -/
def symAfterDot (g : SGrammar) (it : Nat × Nat) : Option Nat :=
  ((g.prods.getD it.1 dummyProd).body)[it.2]?

/-- Modelled from the spec (section 4.C): one round of LR(0) closure: for
every item with a non-terminal after the dot, add the fresh items of that
non-terminal's productions. -/
def closure0Step (g : SGrammar) (items : List (Nat × Nat)) : List (Nat × Nat) :=
  items.foldl (fun acc it =>
    match symAfterDot g it with
    | Option.some b =>
      if (g.syms.getD b dummySym).terminal then acc
      else
        ((List.range g.prods.length).filter (fun q => (g.prods.getD q dummyProd).head == b)).foldl
          (fun a2 q => insItem a2 (q, 0)) acc
    | Option.none => acc) items

/-- Modelled from the spec (section 4.C): the LR(0) closure of an item
set, by fixed-point iteration (at most one fresh item per production). -/
def closure0 (g : SGrammar) (items : List (Nat × Nat)) : List (Nat × Nat) :=
  iterateFix (closure0Step g) (g.prods.length + 2) (items.foldl insItem [])

/-- Modelled from the spec (section 4.C): the kernel of `Goto(I, x)`: the
items of the closed set `I` with `x` after the dot, with the dot
advanced. -/
def gotoKernel (g : SGrammar) (items : List (Nat × Nat)) (x : Nat) : List (Nat × Nat) :=
  items.foldl (fun acc it =>
    if symAfterDot g it == Option.some x then insItem acc (it.1, it.2 + 1) else acc) []

/-- Modelled from the spec (section 4.C): the LR(0) automaton: states
identified by their kernel item sets, numbered in discovery order, and the
goto relation `((state, symbol), target)`. -/
structure SAutomaton where
  kernels : List (List (Nat × Nat))
  trans : List ((Nat × Nat) × Nat)
  deriving DecidableEq, Repr

/-- Modelled from the spec (section 4.C): state discovery: process each
state in order, computing `Goto` for every symbol in index order, reusing
a state with the same kernel signature or appending a new one. -/
def discoverAux (g : SGrammar) : Nat → SAutomaton → Nat → SAutomaton
  | 0, a, _ => a
  | fuel + 1, a, i =>
    if i < a.kernels.length then
      let cl := closure0 g (a.kernels.getD i [])
      let a' := (List.range g.syms.length).foldl (fun acc x =>
        let k := gotoKernel g cl x
        if k = [] then acc
        else
          match acc.kernels.findIdx? (fun k0 => k0 = k) with
          | Option.some j => { acc with trans := acc.trans ++ [((i, x), j)] }
          | Option.none =>
            { kernels := acc.kernels ++ [k],
              trans := acc.trans ++ [((i, x), acc.kernels.length)] }) a
      discoverAux g fuel a' (i + 1)
    else a

/-- Modelled from the spec (section 4.C): the full LR(0) automaton grown
from the closure of the augmented start item (the fuel bounds the number
of processed states; it is far above the state count of the scenario). -/
def discover (g : SGrammar) : SAutomaton :=
  discoverAux g 200 { kernels := [[(0, 0)]], trans := [] } 0

/-- The target of the goto relation for a state and symbol (the state
count as a sentinel when absent). -/
def transTarget (a : SAutomaton) (i x : Nat) : Nat :=
  match a.trans.find? (fun e => e.1 = (i, x)) with
  | Option.some e => e.2
  | Option.none => a.kernels.length

/-- Merge a lookahead set into the entry of an item in an association list
of items with lookaheads. -/
def addLas : List ((Nat × Nat) × List Nat) → Nat × Nat → List Nat →
    List ((Nat × Nat) × List Nat)
  | [], it, las => [(it, las)]
  | (jt, jl) :: rest, it, las =>
    if jt = it then (jt, unionL jl las) :: rest
    else (jt, jl) :: addLas rest it las

/-- Modelled from the spec (section 4.D): one round of LR(1) closure over
items with lookahead sets: for `[A -> a . B b, L]` and every production of
`B`, add `[B -> . g, FIRST(b L)]`. -/
def closure1Step (g : SGrammar) (fs : List (List Nat) × List Bool)
    (l : List ((Nat × Nat) × List Nat)) : List ((Nat × Nat) × List Nat) :=
  l.foldl (fun acc e =>
    match symAfterDot g e.1 with
    | Option.some b =>
      if (g.syms.getD b dummySym).terminal then acc
      else
        let beta := ((g.prods.getD e.1.1 dummyProd).body).drop (e.1.2 + 1)
        let fb := firstSeq fs.1 fs.2 beta
        let las := if fb.2 then unionL fb.1 e.2 else fb.1
        ((List.range g.prods.length).filter
            (fun q => (g.prods.getD q dummyProd).head == b)).foldl
          (fun a2 q => addLas a2 (q, 0) las) acc
    | Option.none => acc) l

/-- Modelled from the spec (section 4.D): the LR(1) closure by fixed-point
iteration (lookahead sets grow monotonically and are bounded). -/
def closure1 (g : SGrammar) (fs : List (List Nat) × List Bool)
    (l : List ((Nat × Nat) × List Nat)) : List ((Nat × Nat) × List Nat) :=
  iterateFix (closure1Step g fs) (g.prods.length * (g.syms.length + 2) + 2) l

/-- Update the i-th element of a list in place. -/
def updAt {α : Type} : List α → Nat → (α → α) → List α
  | [], _, _ => []
  | x :: xs, 0, f => f x :: xs
  | x :: xs, i + 1, f => x :: updAt xs i f

/-- Lookahead table: per state, per kernel-item position, a lookahead
set. -/
def laGet (la : List (List (List Nat))) (i k : Nat) : List Nat :=
  (la.getD i []).getD k []

/-- Merge a lookahead set into one cell of the lookahead table. -/
def laAdd (la : List (List (List Nat))) (i k : Nat) (add : List Nat) :
    List (List (List Nat)) :=
  updAt la i (fun row => updAt row k (fun cell => unionL cell add))

/-- Modelled from the spec (section 4.D): for one kernel item, simulate
the LR(1) closure with the marker lookahead (index `syms.length`):
lookaheads other than the marker reaching a successor kernel item are
spontaneously generated there; the marker itself reaching a successor
item yields a propagation edge. -/
def sponProp (g : SGrammar) (fs : List (List Nat) × List Bool) (a : SAutomaton)
    (i : Nat) (k : Nat) (kit : Nat × Nat)
    (st : List (List (List Nat)) × List ((Nat × Nat) × (Nat × Nat))) :
    List (List (List Nat)) × List ((Nat × Nat) × (Nat × Nat)) :=
  let marker := g.syms.length
  let cl := closure1 g fs [(kit, [marker])]
  cl.foldl (fun acc e =>
    match symAfterDot g e.1 with
    | Option.some x =>
      let j := transTarget a i x
      let succ := (e.1.1, e.1.2 + 1)
      match (a.kernels.getD j []).findIdx? (fun z => z = succ) with
      | Option.some m =>
        let spon := e.2.filter (fun t => !(t == marker))
        let acc1 := (laAdd acc.1 j m spon, acc.2)
        if e.2.contains marker then (acc1.1, acc1.2 ++ [((i, k), (j, m))])
        else acc1
      | Option.none => acc
    | Option.none => acc) st

/-- Modelled from the spec (section 4.D): the initial lookahead table (the
augmented start item seeded with end-of-input) and all spontaneous
lookaheads and propagation edges. -/
def lalrInit (g : SGrammar) (fs : List (List Nat) × List Bool) (a : SAutomaton) :
    List (List (List Nat)) × List ((Nat × Nat) × (Nat × Nat)) :=
  let la0 : List (List (List Nat)) := a.kernels.map (fun ker => ker.map (fun _ => []))
  let la1 := laAdd la0 0 0 [g.eoi]
  (List.range a.kernels.length).foldl (fun acc i =>
    (List.range (a.kernels.getD i []).length).foldl (fun acc2 k =>
      sponProp g fs a i k ((a.kernels.getD i []).getD k (0, 0)) acc2) acc) (la1, [])

/-- Modelled from the spec (section 4.D): one full pass pushing lookaheads
along all propagation edges. -/
def propStep (edges : List ((Nat × Nat) × (Nat × Nat)))
    (la : List (List (List Nat))) : List (List (List Nat)) :=
  edges.foldl (fun acc e => laAdd acc e.2.1 e.2.2 (laGet acc e.1.1 e.1.2)) la

/-- Modelled from the spec (section 4.D): the LALR(1) lookahead table,
propagated to the fixed point (the sets grow monotonically and are
bounded, so enough passes reach it). -/
def lalrLookaheads (g : SGrammar) (fs : List (List Nat) × List Bool)
    (a : SAutomaton) : List (List (List Nat)) :=
  let ip := lalrInit g fs a
  iterateFix (propStep ip.2) 100 ip.1

/-- Modelled from the spec (section 4.E): a parse action. -/
inductive SAction where
  | shift (target : Nat)
  | reduce (production : Nat)
  | accept
  deriving DecidableEq, Repr

/-- Modelled from the spec (section 4.A, finalization step 5): the
precedence symbol governing a reduction: the explicit `%precedence`
override if any, else the rightmost terminal of the body. -/
def reducePrecSym (g : SGrammar) (p : SRule) : Option Nat :=
  match p.precSym with
  | Option.some i => Option.some i
  | Option.none => p.body.reverse.find? (fun i => (g.syms.getD i dummySym).terminal)

/-- Modelled from the spec (section 4.E): the actions of one state for one
terminal, computed from the state's LR(1)-closed item set: a shift for
every item with that terminal after the dot (the augmented item before
end-of-input yields Accept instead), and a reduce for every completed item
having the terminal in its lookahead set. -/
def cellActions (g : SGrammar) (a : SAutomaton) (i : Nat)
    (cl : List ((Nat × Nat) × List Nat)) (t : Nat) : List SAction :=
  cl.foldl (fun acc e =>
    match symAfterDot g e.1 with
    | Option.some x =>
      if x = t then
        if e.1.1 = 0 && x == g.eoi then acc ++ [SAction.accept]
        else acc ++ [SAction.shift (transTarget a i x)]
      else acc
    | Option.none =>
      if e.2.contains t then acc ++ [SAction.reduce e.1.1] else acc) []

/-- Remove duplicate actions (two items may demand the same shift). -/
def dedupActions (l : List SAction) : List SAction :=
  l.foldl (fun acc x => if acc.contains x then acc else acc ++ [x]) []

/-- Modelled from the spec (section 4.E): the number of unresolved
conflicts of one cell.  With a shift and a reduce present, the conflict is
unresolved when either precedence is 0, or the precedences are equal and
the reduce production's precedence symbol has associativity none;
additional reduces beyond the first are unresolved reduce/reduce
conflicts. -/
def cellConflicts (g : SGrammar) (t : Nat) (acts : List SAction) : Nat :=
  let shifts := acts.filter (fun x => match x with | SAction.shift _ => true | _ => false)
  let reduces := acts.filter (fun x => match x with | SAction.reduce _ => true | _ => false)
  let rr := reduces.length - 1
  let sr := if shifts.length > 0 then
      reduces.foldl (fun acc r =>
        match r with
        | SAction.reduce p =>
          let ps := (g.syms.getD t dummySym).prec
          let pr := match reducePrecSym g (g.prods.getD p dummyProd) with
            | Option.some q => (g.syms.getD q dummySym).prec
            | Option.none => 0
          let ass := match reducePrecSym g (g.prods.getD p dummyProd) with
            | Option.some q => (g.syms.getD q dummySym).assoc
            | Option.none => SAssoc.anone
          if ps = 0 || pr = 0 then acc + 1
          else if ps = pr then
            (match ass with
             | SAssoc.anone => acc + 1
             | _ => acc)
          else acc
        | _ => acc) 0
    else 0
  sr + (if reduces.length ≥ 1 then rr else 0)

/-- Modelled from the spec (section 4.E): the total number of unresolved
parse-table conflicts of the grammar's LALR(1) table, each of which is
reported to the error collaborator as a PARSE_TABLE_CONFLICT warning. -/
def totalConflicts (g : SGrammar) : Nat :=
  let fs := firstSets g
  let a := discover g
  let la := lalrLookaheads g fs a
  (List.range a.kernels.length).foldl (fun acc i =>
    let ker := a.kernels.getD i []
    let cl := closure1 g fs
      ((List.range ker.length).map (fun k => (ker.getD k (0, 0), laGet la i k)))
    (List.range g.syms.length).foldl (fun acc2 t =>
      if (g.syms.getD t dummySym).terminal then
        acc2 + cellConflicts g t (dedupActions (cellActions g a i cl t))
      else acc2) acc) 0

/-- Modelled from the spec (section 8, scenario 1) and the builder calls
of TestPrecedenceDirectives.cpp: the left-associative arithmetic grammar
with precedence levels `%left` `+` `-`, `%left` `*` `/`, `%none` integer,
productions `unit: expr ;`, `expr: expr '+' expr | expr '-' expr |
expr '*' expr | expr '/' expr | integer ;` and `integer: "[0-9]+" ;`.
The strings `expr` and `integer` are by-name references as in the
programmatic builder of the test; the whitespace directive concerns only
the lexical collaborator and takes no part in table construction. -/
def scenarioRaw : SRaw :=
  { decls :=
      [{ assoc := SAssoc.aleft, syms := [⟨"+", SLex.lliteral⟩, ⟨"-", SLex.lliteral⟩] },
       { assoc := SAssoc.aleft, syms := [⟨"*", SLex.lliteral⟩, ⟨"/", SLex.lliteral⟩] },
       { assoc := SAssoc.anone, syms := [⟨"integer", SLex.lnull⟩] }],
    prods :=
      [{ head := "unit", body := [⟨"expr", SLex.lnull⟩], precSym := Option.none },
       { head := "expr",
         body := [⟨"expr", SLex.lnull⟩, ⟨"+", SLex.lliteral⟩, ⟨"expr", SLex.lnull⟩],
         precSym := Option.none },
       { head := "expr",
         body := [⟨"expr", SLex.lnull⟩, ⟨"-", SLex.lliteral⟩, ⟨"expr", SLex.lnull⟩],
         precSym := Option.none },
       { head := "expr",
         body := [⟨"expr", SLex.lnull⟩, ⟨"*", SLex.lliteral⟩, ⟨"expr", SLex.lnull⟩],
         precSym := Option.none },
       { head := "expr",
         body := [⟨"expr", SLex.lnull⟩, ⟨"/", SLex.lliteral⟩, ⟨"expr", SLex.lnull⟩],
         precSym := Option.none },
       { head := "expr", body := [⟨"integer", SLex.lnull⟩], precSym := Option.none },
       { head := "integer", body := [⟨"[0-9]+", SLex.lregex⟩], precSym := Option.none }] }

/-- The finalized scenario-1 grammar. -/
def scenarioGrammar : SGrammar :=
  finalize scenarioRaw

/-- The number of errors the scenario-1 generation reports to the error
collaborator: undefined-symbol errors plus unresolved-conflict reports. -/
def scenarioErrors : Nat :=
  undefinedSymbolErrors scenarioGrammar + totalConflicts scenarioGrammar

/-- The number of unresolved parse-table conflicts of scenario 1. -/
def scenarioConflicts : Nat :=
  totalConflicts scenarioGrammar

-- ## Theorems

/-- C1 (counterexample): for the grammar source `G { a : 'x ; }`, in which
the literal is opened but never closed before end of input, `parse` does
not report any `UNTERMINATED_LITERAL` error: it reports exactly three
SYNTAX errors (the failed `expect`s of the closing quote, the `;` and the
`}`). -/
theorem C1_counterexample :
    (parse ['G', ' ', '{', ' ', 'a', ' ', ':', ' ', '\'', 'x', ' ', ';', ' ', '}'] []).2.errors =
      [⟨1, 0, ErrorCode.syntaxError, ['\'']⟩,
       ⟨1, 0, ErrorCode.syntaxError, [';']⟩,
       ⟨1, 0, ErrorCode.syntaxError, ['}']⟩] := by
  decide

/-- C1 (amended): for the source `G { a : 'x ; }` the parser reports three
SYNTAX errors at the literal's line (line 1), the first of them the failed
`expect` of the closing quote, and returns the nonzero error count 3, so no
artifact is produced; `UNTERMINATED_LITERAL` is reported only when a
newline is reached before the closing quote, which does not happen at end
of input. -/
theorem C1_amended :
    (parse ['G', ' ', '{', ' ', 'a', ' ', ':', ' ', '\'', 'x', ' ', ';', ' ', '}'] []).1 = 3 ∧
    ((parse ['G', ' ', '{', ' ', 'a', ' ', ':', ' ', '\'', 'x', ' ', ';', ' ', '}'] []).2.errors.all
      fun e => e.code == ErrorCode.syntaxError ∧ e.line == 1) = true := by
  decide

/-- C2 (counterexample): for the source `G{a:'x` + newline + `b;}` the
parser reports the hard UNTERMINATED_LITERAL error but does not advance to
end of input: the characters after the opening quote are still consumed
and matched afterwards, producing identifier events for `x` (line 1) and
`b` (line 2). -/
theorem C2_counterexample :
    (parse ['G', '{', 'a', ':', '\'', 'x', '\n', 'b', ';', '}'] []).2.errors =
      [⟨1, 0, ErrorCode.unterminatedLiteral, ['l', 'i', 't', 'e', 'r', 'a', 'l']⟩] ∧
    (parse ['G', '{', 'a', ':', '\'', 'x', '\n', 'b', ';', '}'] []).2.events =
      [GEvent.grammarName ['G'], GEvent.production ['a'] 1,
       GEvent.identifier ['x'] 1, GEvent.identifier ['b'] 2,
       GEvent.endExpression 2, GEvent.endProduction] := by
  decide

/-- C2 (amended): a missing expected token (`;`, `]`, `}`, a closing
quote) makes `expect` advance the parser's position to end of input, so
nothing further is matched after such an error; the unterminated-literal
error is the one hard error that does not advance. -/
theorem C2_expect_advances (kw : List Char) (s : PState)
    (h : (expect kw s).1 = false) : (expect kw s).2.rest = [] := by
  by_cases hb : (match_keyword kw s).1 = true
  · simp only [expect, hb, if_true] at h
    exact Bool.noConfusion h
  · simp only [expect, hb, if_false, Bool.false_eq_true, reportError]

/-- Witness for C2_expect_advances at the concrete state with unread input
`x` and the expected lexeme `}`. -/
theorem C2_expect_advances_witness :
    (expect ['}'] { rest := ['x'], line := 1, lexeme := [], errors := [], events := [] }).1 = false ∧
    (expect ['}'] { rest := ['x'], line := 1, lexeme := [], errors := [], events := [] }).2.rest = [] :=
  ⟨by decide, C2_expect_advances ['}'] _ (by decide)⟩

/-- C3 (evaluation at the failing input): `match_identifier` accepts the
input `9x`, which begins with a digit, as an identifier with lexeme `9x`,
because the first character is tested with `isalnum` instead of the
letter-or-underscore test demanded by `IDENT := [A-Za-z_][A-Za-z0-9_]*`. -/
theorem C3_digit_identifier :
    match_identifier { rest := ['9', 'x'], line := 1, lexeme := [], errors := [], events := [] } =
      (true, { rest := [], line := 1, lexeme := ['9', 'x'], errors := [], events := [] }) := by
  decide

/-- C5 (evaluation at the failing input): on the well-formed block comment
`/***/` followed by `x`, `match_block_comment` consumes the whole input
including the `x` after the terminating `*/` (after the first `*` the scan
skips two characters, jumping over the `*` of the terminator), instead of
resuming at `x`. -/
theorem C5_block_comment_overrun :
    match_block_comment
        { rest := ['/', '*', '*', '*', '/', 'x'], line := 1, lexeme := [], errors := [], events := [] } =
      (true, { rest := [], line := 1, lexeme := [], errors := [], events := [] }) := by
  decide

/-- C9: an item built by the checked constructor `Item::Item(Production*,
int)` satisfies `0 ≤ dot-position ≤ |body|`, and the only state-changing
operation, `add_lookahead_symbols`, changes neither the production nor the
position, so the invariant holds after every operation on the item. -/
theorem C9_item_invariant (p : Production) (pos : Int) (it : Item)
    (h : Item.make (Option.some p) pos = Option.some it) :
    it.production = Option.some p ∧ Item.wf it p ∧
    ∀ las : Finset Nat,
      (it.add_lookahead_symbols las).1.production = it.production ∧
      (it.add_lookahead_symbols las).1.position = it.position ∧
      Item.wf (it.add_lookahead_symbols las).1 p := by
  simp only [Item.make] at h
  split at h
  · rename_i hc
    injection h with h
    subst h
    obtain ⟨hc1, hc2⟩ := hc
    have hle : pos ≤ (p.length : Int) := by omega
    exact ⟨rfl, ⟨hc1, hle⟩, fun las => ⟨rfl, rfl, hc1, hle⟩⟩
  · exact absurd h (by simp)

/-- Witness for C9_item_invariant at the production with two body symbols
and dot position 1, with lookahead argument `{5}`. -/
theorem C9_item_invariant_witness :
    Item.make (Option.some prodEx) 1 = Option.some itemEx ∧
    (itemEx.production = Option.some prodEx ∧ Item.wf itemEx prodEx ∧
      ((itemEx.add_lookahead_symbols {5}).1.production = itemEx.production ∧
       (itemEx.add_lookahead_symbols {5}).1.position = itemEx.position ∧
       Item.wf (itemEx.add_lookahead_symbols {5}).1 prodEx)) := by
  have h : Item.make (Option.some prodEx) 1 = Option.some itemEx := by decide
  have hc := C9_item_invariant prodEx 1 itemEx h
  exact ⟨h, hc.1, hc.2.1, hc.2.2 {5}⟩

/-- C10: `Item::add_lookahead_symbols` is monotone and reports its growth:
the new lookahead set is the union of the old set and the argument (so no
symbol is removed), the returned count is the number of genuinely new
symbols, and repeating the call with the same argument returns 0. -/
theorem C10_add_lookahead (it : Item) (las : Finset Nat) :
    (it.add_lookahead_symbols las).1.lookahead_symbols = it.lookahead_symbols ∪ las ∧
    it.lookahead_symbols ⊆ (it.add_lookahead_symbols las).1.lookahead_symbols ∧
    (it.add_lookahead_symbols las).2 = (las \ it.lookahead_symbols).card ∧
    ((it.add_lookahead_symbols las).1.add_lookahead_symbols las).2 = 0 := by
  refine ⟨rfl, Finset.subset_union_left, ?_, ?_⟩
  · show (it.lookahead_symbols ∪ las).card - it.lookahead_symbols.card = _
    have h := Finset.card_sdiff_add_card (s := las) (t := it.lookahead_symbols)
    rw [Finset.union_comm las it.lookahead_symbols] at h
    omega
  · show ((it.lookahead_symbols ∪ las) ∪ las).card - (it.lookahead_symbols ∪ las).card = 0
    rw [Finset.union_assoc, Finset.union_self]
    omega

/-- Escape tracking steps down one cons cell: the flag carried at index
`j + 1` of `c :: cs` is the flag carried at index `j` of `cs` when the
initial flag becomes `c = '\\'`. -/
theorem escapedAt_cons (e : Bool) (c : Char) (cs : List Char) (j : Nat) :
    escapedAt e (c :: cs) (j + 1) = escapedAt (c = '\\') cs j := by
  cases j with
  | zero => simp [escapedAt]
  | succ j' => simp [escapedAt]

/-- The closing-quote predicate of the literal scanner steps down one cons
cell. -/
theorem closesLiteral_cons (e : Bool) (c : Char) (cs : List Char) (j : Nat) :
    closesLiteral e (c :: cs) (j + 1) = closesLiteral (c = '\\') cs j := by
  simp [closesLiteral, escapedAt_cons]

/-- The closing-quote predicate of the regex scanner steps down one cons
cell. -/
theorem closesRegex_cons (e : Bool) (c : Char) (cs : List Char) (j : Nat) :
    closesRegex e (c :: cs) (j + 1) = closesRegex (c = '\\') cs j := by
  simp [closesRegex, escapedAt_cons]

/-- If some character of `cs` is a newline and no unescaped closing quote
occurs before it, the literal scanning loop stops on a newline. -/
theorem scanLiteral_newline (cs : List Char) (e : Bool) (k : Nat)
    (hk : k < cs.length) (hnl : is_newline (cs.getD k ' ') = true)
    (hnc : ∀ j, j < k → closesLiteral e cs j = false) :
    ∃ c cs', (scanLiteral cs e).2 = c :: cs' ∧ is_newline c = true := by
  induction cs generalizing e k with
  | nil => simp at hk
  | cons c cs ih =>
    by_cases hcnl : is_newline c = true
    · exact ⟨c, cs, by simp [scanLiteral, hcnl], hcnl⟩
    · have hk0 : k ≠ 0 := by
        intro h0
        subst h0
        rw [List.getD_cons_zero] at hnl
        exact hcnl hnl
      obtain ⟨k', rfl⟩ := Nat.exists_eq_succ_of_ne_zero hk0
      have h0 := hnc 0 (Nat.succ_pos k')
      simp only [closesLiteral, escapedAt, List.getD_cons_zero, Bool.and_eq_false_iff] at h0
      have hstep : (scanLiteral (c :: cs) e).2 = (scanLiteral cs (c = '\\')).2 := by
        rcases h0 with h0 | h0
        · simp [scanLiteral, hcnl, by simpa using h0]
        · simp [scanLiteral, hcnl, by simpa using h0]
      rw [hstep]
      refine ih (c = '\\') k' (by simpa using hk) ?_ ?_
      · simpa using hnl
      · intro j hj
        have := hnc (j + 1) (by omega)
        rwa [closesLiteral_cons] at this

/-- A keyword whose first character differs from the first unread character
fails to match without moving the parser. -/
theorem mwsw_head_ne (k c : Char) (kws cs : List Char) (s : PState)
    (hrest : s.rest = c :: cs) (hne : k ≠ c) :
    match_without_skipping_whitespace (k :: kws) s = (false, s) := by
  simp [match_without_skipping_whitespace, hrest, List.isPrefixOf, hne]

/-- When the next unread character is neither whitespace nor a slash,
skipping whitespace and comments leaves the state unchanged. -/
theorem wsc_no_trigger (s : PState) (c : Char) (cs : List Char)
    (hrest : s.rest = c :: cs) (hs : c_isspace c = false) (hc : c ≠ '/') :
    match_whitespace_and_comments s = s := by
  have h1 : match_whitespace s = (false, s) := by
    simp [match_whitespace, hrest, hs]
  have h2 : match_line_comment s = (false, s) := by
    simp [match_line_comment, mwsw_head_ne '/' c ['/'] cs s hrest (Ne.symm hc)]
  have h3 : match_block_comment s = (false, s) := by
    simp [match_block_comment, mwsw_head_ne '/' c ['*'] cs s hrest (Ne.symm hc)]
  have hfuel : s.rest.length + 1 = cs.length + 1 + 1 := by
    rw [hrest]
    simp
  rw [match_whitespace_and_comments, hfuel]
  simp [wscAux, h1, h2, h3]

/-- C4: whenever an opened literal reaches a newline character before any
unescaped closing quote, `match_literal` fails and reports an
UNTERMINATED_LITERAL error at the current line (literals may not span
lines). -/
theorem C4_newline_unterminated (s : PState) (cs : List Char) (k : Nat)
    (hrest : s.rest = '\'' :: cs) (hk : k < cs.length)
    (hnl : is_newline (cs.getD k ' ') = true)
    (hnc : ∀ j, j < k → closesLiteral false cs j = false) :
    (match_literal s).1 = false ∧
    (match_literal s).2.errors =
      s.errors ++ [⟨s.line, 0, ErrorCode.unterminatedLiteral,
        ['l', 'i', 't', 'e', 'r', 'a', 'l']⟩] := by
  have hwsc : match_whitespace_and_comments s = s :=
    wsc_no_trigger s '\'' cs hrest (by decide) (by decide)
  have hpre : match_without_skipping_whitespace ['\''] s = (true, { s with rest := cs }) := by
    simp [match_without_skipping_whitespace, hrest, List.isPrefixOf]
  obtain ⟨c, cs', hscan, hcnl⟩ := scanLiteral_newline cs false k hk hnl hnc
  simp only [match_literal, hwsc, hpre, hscan, hcnl, reportError]
  simp

/-- Witness state for C4: unread input is a literal opened before `a`
followed by a newline. -/
theorem C4_newline_unterminated_witness :
    ((1 : Nat) < (['a', '\n'] : List Char).length ∧
     is_newline ((['a', '\n'] : List Char).getD 1 ' ') = true ∧
     (∀ j, j < 1 → closesLiteral false ['a', '\n'] j = false)) ∧
    ((match_literal
        { rest := ['\'', 'a', '\n'], line := 4, lexeme := [], errors := [], events := [] }).1 = false ∧
     (match_literal
        { rest := ['\'', 'a', '\n'], line := 4, lexeme := [], errors := [], events := [] }).2.errors =
       [] ++ [⟨4, 0, ErrorCode.unterminatedLiteral, ['l', 'i', 't', 'e', 'r', 'a', 'l']⟩]) :=
  ⟨⟨by decide, by decide, by decide⟩,
    C4_newline_unterminated
      { rest := ['\'', 'a', '\n'], line := 4, lexeme := [], errors := [], events := [] }
      ['a', '\n'] 1 rfl (by decide) (by decide) (by decide)⟩

/-- The regex scanning loop stops exactly at the first unescaped double
quote: everything before it (newlines included) is consumed. -/
theorem scanRegex_take (cs : List Char) (e : Bool) (m : Nat)
    (hm : m < cs.length) (hclose : closesRegex e cs m = true)
    (hnone : ∀ j, j < m → closesRegex e cs j = false) :
    scanRegex cs e = (cs.take m, cs.drop m) := by
  induction cs generalizing e m with
  | nil => simp at hm
  | cons c cs ih =>
    cases m with
    | zero =>
      simp only [closesRegex, escapedAt, List.getD_cons_zero, Bool.and_eq_true,
        Bool.not_eq_true', decide_eq_true_eq] at hclose
      simp [scanRegex, hclose.1, hclose.2]
    | succ m' =>
      have h0 := hnone 0 (Nat.succ_pos m')
      simp only [closesRegex, escapedAt, List.getD_cons_zero, Bool.and_eq_false_iff] at h0
      have hih := ih (c = '\\') m' (by simpa using hm)
        (by rwa [closesRegex_cons] at hclose)
        (fun j hj => by
          have := hnone (j + 1) (by omega)
          rwa [closesRegex_cons] at this)
      have hstep : scanRegex (c :: cs) e =
          (c :: (scanRegex cs (c = '\\')).1, (scanRegex cs (c = '\\')).2) := by
        rcases h0 with h0 | h0
        · simp [scanRegex, by simpa using h0]
        · simp [scanRegex, by simpa using h0]
      rw [hstep, hih]
      simp

/-- C8: a double-quoted regex whose first unescaped closing quote comes
after newline characters is still matched: the scan continues across the
newlines, the whole body (newlines included) is captured as the lexeme, the
closing quote is consumed, and no error is reported. -/
theorem C8_regex_spans_lines (s : PState) (cs : List Char) (m : Nat)
    (hrest : s.rest = '"' :: cs) (hm : m < cs.length)
    (hclose : closesRegex false cs m = true)
    (hnone : ∀ j, j < m → closesRegex false cs j = false)
    (hnl : '\n' ∈ cs.take m) :
    (match_regex s).1 = true ∧
    (match_regex s).2.lexeme = cs.take m ∧
    '\n' ∈ (match_regex s).2.lexeme ∧
    (match_regex s).2.rest = cs.drop (m + 1) ∧
    (match_regex s).2.errors = s.errors := by
  have hwsc : match_whitespace_and_comments s = s :=
    wsc_no_trigger s '"' cs hrest (by decide) (by decide)
  have hpre : match_without_skipping_whitespace ['"'] s = (true, { s with rest := cs }) := by
    simp [match_without_skipping_whitespace, hrest, List.isPrefixOf]
  have hscan := scanRegex_take cs false m hm hclose hnone
  have hq : cs.getD m ' ' = '"' := by
    simp only [closesRegex, Bool.and_eq_true, decide_eq_true_eq] at hclose
    exact hclose.1
  have hdrop : cs.drop m = '"' :: cs.drop (m + 1) := by
    rw [List.drop_eq_getElem_cons hm]
    rw [List.getD_eq_getElem cs ' ' hm] at hq
    rw [hq]
  -- the state after taking the lexeme; the closing quote is expected next
  have hexp : ∀ t : PState, t.rest = '"' :: cs.drop (m + 1) →
      expect ['"'] t = (true, { t with rest := cs.drop (m + 1) }) := by
    intro t ht
    have hwsct : match_whitespace_and_comments t = t :=
      wsc_no_trigger t '"' (cs.drop (m + 1)) ht (by decide) (by decide)
    simp [expect, match_keyword, hwsct, match_without_skipping_whitespace, ht, List.isPrefixOf]
  simp only [match_regex, hwsc, hpre, hscan]
  rw [hexp { rest := cs.drop m, line := s.line, lexeme := cs.take m,
             errors := s.errors, events := s.events } (by simpa using hdrop)]
  refine ⟨rfl, rfl, hnl, rfl, rfl⟩

/-- Witness for C8 at the concrete regex body `a`, newline, `b`, closing
quote, then `x`. -/
theorem C8_regex_spans_lines_witness :
    ((3 : Nat) < (['a', '\n', 'b', '"', 'x'] : List Char).length ∧
     closesRegex false ['a', '\n', 'b', '"', 'x'] 3 = true ∧
     (∀ j, j < 3 → closesRegex false ['a', '\n', 'b', '"', 'x'] j = false) ∧
     '\n' ∈ (['a', '\n', 'b', '"', 'x'] : List Char).take 3) ∧
    ((match_regex
        { rest := ['"', 'a', '\n', 'b', '"', 'x'], line := 1, lexeme := [],
          errors := [], events := [] }).1 = true ∧
     (match_regex
        { rest := ['"', 'a', '\n', 'b', '"', 'x'], line := 1, lexeme := [],
          errors := [], events := [] }).2.lexeme = ['a', '\n', 'b'] ∧
     (match_regex
        { rest := ['"', 'a', '\n', 'b', '"', 'x'], line := 1, lexeme := [],
          errors := [], events := [] }).2.rest = ['x']) := by
  have h := C8_regex_spans_lines
    { rest := ['"', 'a', '\n', 'b', '"', 'x'], line := 1, lexeme := [], errors := [], events := [] }
    ['a', '\n', 'b', '"', 'x'] 3 rfl (by decide) (by decide) (by decide) (by decide)
  exact ⟨⟨by decide, by decide, by decide, by decide⟩, h.1, h.2.1, h.2.2.2.1⟩

/-- Keyword matching does not touch the lexeme buffer. -/
theorem mwsw_lexeme (kw : List Char) (s : PState) :
    (match_without_skipping_whitespace kw s).2.lexeme = s.lexeme := by
  simp only [match_without_skipping_whitespace]
  split <;> rfl

/-- Whitespace skipping does not touch the lexeme buffer. -/
theorem match_whitespace_lexeme (s : PState) :
    (match_whitespace s).2.lexeme = s.lexeme := by
  simp only [match_whitespace]
  rcases s.rest with _ | ⟨c, cs⟩
  · rfl
  · dsimp only
    split <;> rfl

/-- Line-comment skipping does not touch the lexeme buffer. -/
theorem match_line_comment_lexeme (s : PState) :
    (match_line_comment s).2.lexeme = s.lexeme := by
  simp only [match_line_comment]
  split
  · exact mwsw_lexeme _ s
  · rfl

/-- Block-comment skipping does not touch the lexeme buffer. -/
theorem match_block_comment_lexeme (s : PState) :
    (match_block_comment s).2.lexeme = s.lexeme := by
  simp only [match_block_comment]
  split
  · exact mwsw_lexeme _ s
  · rfl

/-- The whitespace-and-comments loop does not touch the lexeme buffer. -/
theorem wscAux_lexeme (fuel : Nat) : ∀ s : PState, (wscAux fuel s).lexeme = s.lexeme := by
  induction fuel with
  | zero => intro s; rfl
  | succ n ih =>
    intro s
    simp only [wscAux]
    split
    · rw [ih, match_whitespace_lexeme]
    · split
      · rw [ih, match_line_comment_lexeme]
      · split
        · rw [ih, match_block_comment_lexeme]
        · rfl

/-- Skipping whitespace and comments does not touch the lexeme buffer. -/
theorem wsc_lexeme (s : PState) :
    (match_whitespace_and_comments s).lexeme = s.lexeme :=
  wscAux_lexeme _ s

/-- The `match` member does not touch the lexeme buffer. -/
theorem match_keyword_lexeme (kw : List Char) (s : PState) :
    (match_keyword kw s).2.lexeme = s.lexeme := by
  simp only [match_keyword]
  rw [mwsw_lexeme, wsc_lexeme]

/-- The `expect` member does not touch the lexeme buffer. -/
theorem expect_lexeme (kw : List Char) (s : PState) :
    (expect kw s).2.lexeme = s.lexeme := by
  simp only [expect]
  split
  · exact match_keyword_lexeme kw s
  · simp only [reportError]
    exact match_keyword_lexeme kw s

/-- Keyword matching gives the same verdict and keeps lexeme-agnostic
states lexeme-agnostic. -/
theorem mwsw_rel (kw : List Char) {s t : PState} (h : LexRel s t) :
    LexRelB (match_without_skipping_whitespace kw s) (match_without_skipping_whitespace kw t) := by
  obtain ⟨h1, h2, h3, h4⟩ := h
  simp only [match_without_skipping_whitespace, h1]
  by_cases hp : kw.isPrefixOf t.rest
  · simp [hp, LexRelB, LexRel, h1, h2, h3, h4]
  · simp [hp, LexRelB, LexRel, h1, h2, h3, h4]

/-- Whitespace skipping respects lexeme-agnosticism. -/
theorem match_whitespace_rel {s t : PState} (h : LexRel s t) :
    LexRelB (match_whitespace s) (match_whitespace t) := by
  obtain ⟨h1, h2, h3, h4⟩ := h
  simp only [match_whitespace, h1, h2]
  rcases ht : t.rest with _ | ⟨c, cs⟩
  · exact ⟨rfl, h1, h2, h3, h4⟩
  · dsimp only
    by_cases hc : c_isspace c = true
    · simp [hc, LexRelB, LexRel, h2, h3, h4]
    · simp [hc, LexRelB, LexRel, h1, h2, h3, h4]

/-- Line-comment skipping respects lexeme-agnosticism. -/
theorem match_line_comment_rel {s t : PState} (h : LexRel s t) :
    LexRelB (match_line_comment s) (match_line_comment t) := by
  obtain ⟨e1, f1, f2, f3, f4⟩ := mwsw_rel ['/', '/'] h
  simp only [match_line_comment, e1, f1]
  by_cases hb : (match_without_skipping_whitespace ['/', '/'] t).1 = true
  · simp [hb, LexRelB, LexRel, f1, f2, f3, f4]
  · simp [hb, LexRelB, LexRel, h.1, h.2.1, h.2.2.1, h.2.2.2]

/-- Block-comment skipping respects lexeme-agnosticism. -/
theorem match_block_comment_rel {s t : PState} (h : LexRel s t) :
    LexRelB (match_block_comment s) (match_block_comment t) := by
  obtain ⟨e1, f1, f2, f3, f4⟩ := mwsw_rel ['/', '*'] h
  simp only [match_block_comment, e1, f1]
  by_cases hb : (match_without_skipping_whitespace ['/', '*'] t).1 = true
  · simp [hb, LexRelB, LexRel, f1, f2, f3, f4]
  · simp [hb, LexRelB, LexRel, h.1, h.2.1, h.2.2.1, h.2.2.2]

/-- The whitespace-and-comments loop respects lexeme-agnosticism. -/
theorem wscAux_rel (fuel : Nat) : ∀ {s t : PState}, LexRel s t →
    LexRel (wscAux fuel s) (wscAux fuel t) := by
  induction fuel with
  | zero => intro s t h; exact h
  | succ n ih =>
    intro s t h
    obtain ⟨ew, rw1⟩ := match_whitespace_rel h
    obtain ⟨el, rl⟩ := match_line_comment_rel h
    obtain ⟨eb, rb⟩ := match_block_comment_rel h
    simp only [wscAux, ew, el, eb]
    by_cases hw : (match_whitespace t).1 = true
    · simp only [hw, if_true]
      exact ih rw1
    · simp only [hw, if_false, Bool.false_eq_true]
      by_cases hl : (match_line_comment t).1 = true
      · simp only [hl, if_true]
        exact ih rl
      · simp only [hl, if_false, Bool.false_eq_true]
        by_cases hb : (match_block_comment t).1 = true
        · simp only [hb, if_true]
          exact ih rb
        · simp only [hb, if_false, Bool.false_eq_true]
          exact h

/-- Skipping whitespace and comments respects lexeme-agnosticism. -/
theorem wsc_rel {s t : PState} (h : LexRel s t) :
    LexRel (match_whitespace_and_comments s) (match_whitespace_and_comments t) := by
  simp only [match_whitespace_and_comments, h.1]
  exact wscAux_rel _ h

/-- The `match` member respects lexeme-agnosticism. -/
theorem match_keyword_rel (kw : List Char) {s t : PState} (h : LexRel s t) :
    LexRelB (match_keyword kw s) (match_keyword kw t) :=
  mwsw_rel kw (wsc_rel h)

/-- The `expect` member respects lexeme-agnosticism. -/
theorem expect_rel (kw : List Char) {s t : PState} (h : LexRel s t) :
    LexRelB (expect kw s) (expect kw t) := by
  obtain ⟨e1, f1, f2, f3, f4⟩ := match_keyword_rel kw h
  simp only [expect, e1]
  by_cases hb : (match_keyword kw t).1 = true
  · simp [hb, LexRelB, LexRel, f1, f2, f3, f4]
  · simp [hb, LexRelB, LexRel, reportError, f1, f2, f3, f4]

/-- The `match_end` member respects lexeme-agnosticism. -/
theorem match_end_rel {s t : PState} (h : LexRel s t) :
    LexRelB (match_end s) (match_end t) := by
  have hw := wsc_rel h
  simp only [match_end, hw.1]
  exact ⟨rfl, hw⟩

/-- The `match_error` member respects lexeme-agnosticism. -/
theorem match_error_rel {s t : PState} (h : LexRel s t) :
    LexRelB (match_error s) (match_error t) :=
  match_keyword_rel _ h

/-- The `match_literal` member respects lexeme-agnosticism, and on success
the scanned lexemes coincide. -/
theorem match_literal_rel {s t : PState} (h : LexRel s t) :
    LexRelB (match_literal s) (match_literal t) ∧
    ((match_literal s).1 = true →
      (match_literal s).2.lexeme = (match_literal t).2.lexeme) := by
  have hw := wsc_rel h
  obtain ⟨e1, f1, f2, f3, f4⟩ := mwsw_rel ['\''] hw
  simp only [match_literal, e1, f1]
  by_cases hb : (match_without_skipping_whitespace ['\''] (match_whitespace_and_comments t)).1 = true
  · simp only [hb, if_true]
    set sc := scanLiteral
      (match_without_skipping_whitespace ['\''] (match_whitespace_and_comments t)).2.rest false
      with hsc
    by_cases hh : (match sc.2 with | [] => true | c :: _ => !is_newline c) = true
    · simp only [hh, if_true]
      have he := expect_rel ['\'']
        (s := { (match_without_skipping_whitespace ['\''] (match_whitespace_and_comments s)).2
                  with lexeme := sc.1, rest := sc.2 })
        (t := { (match_without_skipping_whitespace ['\''] (match_whitespace_and_comments t)).2
                  with lexeme := sc.1, rest := sc.2 })
        ⟨rfl, f2, f3, f4⟩
      refine ⟨⟨rfl, he.2⟩, fun _ => ?_⟩
      rw [expect_lexeme, expect_lexeme]
    · simp only [hh, if_false, Bool.false_eq_true]
      exact ⟨⟨rfl, f1, f2, by simp [reportError, f2, f3], f4⟩, fun hx => by simp at hx⟩
  · simp only [hb, if_false, Bool.false_eq_true]
    exact ⟨⟨rfl, hw⟩, fun hx => by simp at hx⟩

/-- The `match_regex` member respects lexeme-agnosticism, and on success
the scanned lexemes coincide. -/
theorem match_regex_rel {s t : PState} (h : LexRel s t) :
    LexRelB (match_regex s) (match_regex t) ∧
    ((match_regex s).1 = true →
      (match_regex s).2.lexeme = (match_regex t).2.lexeme) := by
  have hw := wsc_rel h
  obtain ⟨e1, f1, f2, f3, f4⟩ := mwsw_rel ['"'] hw
  simp only [match_regex, e1, f1]
  by_cases hb : (match_without_skipping_whitespace ['"'] (match_whitespace_and_comments t)).1 = true
  · simp only [hb, if_true]
    set sc := scanRegex
      (match_without_skipping_whitespace ['"'] (match_whitespace_and_comments t)).2.rest false
      with hsc
    have he := expect_rel ['"']
      (s := { (match_without_skipping_whitespace ['"'] (match_whitespace_and_comments s)).2
                with lexeme := sc.1, rest := sc.2 })
      (t := { (match_without_skipping_whitespace ['"'] (match_whitespace_and_comments t)).2
                with lexeme := sc.1, rest := sc.2 })
      ⟨rfl, f2, f3, f4⟩
    refine ⟨⟨rfl, he.2⟩, fun _ => ?_⟩
    rw [expect_lexeme, expect_lexeme]
  · simp only [hb, if_false, Bool.false_eq_true]
    exact ⟨⟨rfl, hw⟩, fun hx => by simp at hx⟩

/-- The `match_identifier` member respects lexeme-agnosticism, and on
success the scanned lexemes coincide. -/
theorem match_identifier_rel {s t : PState} (h : LexRel s t) :
    LexRelB (match_identifier s) (match_identifier t) ∧
    ((match_identifier s).1 = true →
      (match_identifier s).2.lexeme = (match_identifier t).2.lexeme) := by
  obtain ⟨w1, w2, w3, w4⟩ := wsc_rel h
  simp only [match_identifier, w1]
  rcases ht : (match_whitespace_and_comments t).rest with _ | ⟨c, cs⟩
  · exact ⟨⟨rfl, w1, w2, w3, w4⟩, fun hx => by simp at hx⟩
  · dsimp only
    by_cases hc : (c_isalnum c || c = '_') = true
    · simp only [hc, if_true]
      refine ⟨⟨rfl, ⟨rfl, w2, w3, w4⟩⟩, fun hx => ?_⟩
      exact trivial
    · simp only [hc, if_false, Bool.false_eq_true]
      exact ⟨⟨rfl, w1, w2, w3, w4⟩, fun hx => by simp at hx⟩

/-- Emitting the same builder event respects lexeme-agnosticism. -/
theorem emit_rel (e : GEvent) {s t : PState} (h : LexRel s t) :
    LexRel (emit e s) (emit e t) := by
  obtain ⟨h1, h2, h3, h4⟩ := h
  exact ⟨h1, h2, h3, by simp only [emit, h4]⟩

/-- Emitting a line-stamped builder event respects lexeme-agnosticism. -/
theorem emit_line_rel (f : Nat → GEvent) {s t : PState} (h : LexRel s t) :
    LexRel (emit (f s.line) s) (emit (f t.line) t) := by
  rw [h.2.1]
  exact emit_rel _ h

/-- Emitting a lexeme-and-line-stamped builder event respects
lexeme-agnosticism once the lexemes agree. -/
theorem emit_lex_rel (f : List Char → Nat → GEvent) {s t : PState} (h : LexRel s t)
    (hl : s.lexeme = t.lexeme) :
    LexRel (emit (f s.lexeme s.line) s) (emit (f t.lexeme t.line) t) := by
  rw [h.2.1, hl]
  exact emit_rel _ h

/-- The `match_associativity` member respects lexeme-agnosticism. -/
theorem match_associativity_rel {s t : PState} (h : LexRel s t) :
    LexRelB (match_associativity s) (match_associativity t) := by
  obtain ⟨e1, r1⟩ := match_keyword_rel ['%', 'l', 'e', 'f', 't'] h
  simp only [match_associativity, e1]
  by_cases h1 : (match_keyword ['%', 'l', 'e', 'f', 't'] t).1 = true
  · simp only [h1, if_true]
    exact ⟨rfl, emit_line_rel GEvent.left r1⟩
  · simp only [h1, if_false, Bool.false_eq_true]
    obtain ⟨e2, r2⟩ := match_keyword_rel ['%', 'r', 'i', 'g', 'h', 't'] r1
    simp only [e2]
    by_cases h2 : (match_keyword ['%', 'r', 'i', 'g', 'h', 't'] (match_keyword ['%', 'l', 'e', 'f', 't'] t).2).1 = true
    · simp only [h2, if_true]
      exact ⟨rfl, emit_line_rel GEvent.right r2⟩
    · simp only [h2, if_false, Bool.false_eq_true]
      obtain ⟨e3, r3⟩ := match_keyword_rel ['%', 'n', 'o', 'n', 'e'] r2
      simp only [e3]
      by_cases h3 : (match_keyword ['%', 'n', 'o', 'n', 'e'] (match_keyword ['%', 'r', 'i', 'g', 'h', 't'] (match_keyword ['%', 'l', 'e', 'f', 't'] t).2).2).1 = true
      · simp only [h3, if_true]
        exact ⟨rfl, emit_line_rel GEvent.none r3⟩
      · simp only [h3, if_false, Bool.false_eq_true]
        exact ⟨rfl, r3⟩

/-- The `match_symbol` member respects lexeme-agnosticism. -/
theorem match_symbol_rel {s t : PState} (h : LexRel s t) :
    LexRelB (match_symbol s) (match_symbol t) := by
  obtain ⟨e1, r1⟩ := match_error_rel h
  simp only [match_symbol, e1]
  by_cases h1 : (match_error t).1 = true
  · simp only [h1, if_true]
    exact ⟨rfl, emit_line_rel GEvent.errorSymbol r1⟩
  · simp only [h1, if_false, Bool.false_eq_true]
    obtain ⟨⟨e2, r2⟩, hl2⟩ := match_literal_rel r1
    simp only [e2]
    by_cases h2 : (match_literal (match_error t).2).1 = true
    · simp only [h2, if_true]
      refine ⟨rfl, emit_lex_rel GEvent.literal r2 (hl2 ?_)⟩
      rw [e2]
      exact h2
    · simp only [h2, if_false, Bool.false_eq_true]
      obtain ⟨⟨e3, r3⟩, hl3⟩ := match_regex_rel r2
      simp only [e3]
      by_cases h3 : (match_regex (match_literal (match_error t).2).2).1 = true
      · simp only [h3, if_true]
        refine ⟨rfl, emit_lex_rel GEvent.regex r3 (hl3 ?_)⟩
        rw [e3]
        exact h3
      · simp only [h3, if_false, Bool.false_eq_true]
        obtain ⟨⟨e4, r4⟩, hl4⟩ := match_identifier_rel r3
        simp only [e4]
        by_cases h4 : (match_identifier (match_regex (match_literal (match_error t).2).2).2).1 = true
        · simp only [h4, if_true]
          refine ⟨rfl, emit_lex_rel GEvent.identifier r4 (hl4 ?_)⟩
          rw [e4]
          exact h4
        · simp only [h4, if_false, Bool.false_eq_true]
          exact ⟨rfl, r4⟩

/-- The symbols loop respects lexeme-agnosticism. -/
theorem matchSymbolsAux_rel (fuel : Nat) : ∀ {s t : PState}, LexRel s t →
    LexRel (matchSymbolsAux fuel s) (matchSymbolsAux fuel t) := by
  induction fuel with
  | zero => intro s t h; exact h
  | succ n ih =>
    intro s t h
    obtain ⟨e1, r1⟩ := match_symbol_rel h
    simp only [matchSymbolsAux, e1]
    by_cases h1 : (match_symbol t).1 = true
    · simp only [h1, if_true]
      exact ih r1
    · simp only [h1, if_false, Bool.false_eq_true]
      exact r1

/-- The `match_symbols` member respects lexeme-agnosticism. -/
theorem match_symbols_rel {s t : PState} (h : LexRel s t) :
    LexRel (match_symbols s) (match_symbols t) := by
  simp only [match_symbols, h.1]
  exact matchSymbolsAux_rel _ h

/-- The `match_precedence` member respects lexeme-agnosticism. -/
theorem match_precedence_rel {s t : PState} (h : LexRel s t) :
    LexRelB (match_precedence s) (match_precedence t) := by
  obtain ⟨e1, r1⟩ := match_keyword_rel ['%', 'p', 'r', 'e', 'c', 'e', 'd', 'e', 'n', 'c', 'e'] h
  simp only [match_precedence, e1]
  by_cases h1 : (match_keyword ['%', 'p', 'r', 'e', 'c', 'e', 'd', 'e', 'n', 'c', 'e'] t).1 = true
  · simp only [h1, if_true]
    exact ⟨rfl, (match_symbol_rel (emit_rel GEvent.precedence r1)).2⟩
  · simp only [h1, if_false, Bool.false_eq_true]
    exact ⟨rfl, r1⟩

/-- The `match_action` member respects lexeme-agnosticism. -/
theorem match_action_rel {s t : PState} (h : LexRel s t) :
    LexRelB (match_action s) (match_action t) := by
  obtain ⟨e1, r1⟩ := match_keyword_rel ['['] h
  simp only [match_action, e1]
  by_cases h1 : (match_keyword ['['] t).1 = true
  · simp only [h1, if_true]
    obtain ⟨⟨e2, r2⟩, hl2⟩ := match_identifier_rel r1
    simp only [e2]
    by_cases h2 : (match_identifier (match_keyword ['['] t).2).1 = true
    · simp only [h2, if_true]
      refine ⟨rfl, (expect_rel [']'] (emit_lex_rel GEvent.action r2 (hl2 ?_))).2⟩
      rw [e2]
      exact h2
    · simp only [h2, if_false, Bool.false_eq_true]
      exact ⟨rfl, (expect_rel [']'] r2).2⟩
  · simp only [h1, if_false, Bool.false_eq_true]
    exact ⟨rfl, emit_line_rel GEvent.endExpression r1⟩

/-- The `match_expression` member respects lexeme-agnosticism. -/
theorem match_expression_rel {s t : PState} (h : LexRel s t) :
    LexRel (match_expression s) (match_expression t) :=
  (match_action_rel (match_precedence_rel (match_symbols_rel h)).2).2

/-- The expressions loop respects lexeme-agnosticism. -/
theorem matchExpressionsAux_rel (fuel : Nat) : ∀ {s t : PState}, LexRel s t →
    LexRel (matchExpressionsAux fuel s) (matchExpressionsAux fuel t) := by
  induction fuel with
  | zero => intro s t h; exact h
  | succ n ih =>
    intro s t h
    obtain ⟨e1, r1⟩ := match_keyword_rel ['|'] h
    simp only [matchExpressionsAux, e1]
    by_cases h1 : (match_keyword ['|'] t).1 = true
    · simp only [h1, if_true]
      exact ih (match_expression_rel r1)
    · simp only [h1, if_false, Bool.false_eq_true]
      exact r1

/-- The `match_expressions` member respects lexeme-agnosticism. -/
theorem match_expressions_rel {s t : PState} (h : LexRel s t) :
    LexRel (match_expressions s) (match_expressions t) := by
  have h1 := match_expression_rel h
  simp only [match_expressions, h1.1]
  exact matchExpressionsAux_rel _ h1

/-- The `match_associativity_statement` member respects
lexeme-agnosticism. -/
theorem match_associativity_statement_rel {s t : PState} (h : LexRel s t) :
    LexRelB (match_associativity_statement s) (match_associativity_statement t) := by
  obtain ⟨e1, r1⟩ := match_associativity_rel h
  simp only [match_associativity_statement, e1]
  by_cases h1 : (match_associativity t).1 = true
  · simp only [h1, if_true]
    exact ⟨rfl, (expect_rel [';'] (match_symbols_rel r1)).2⟩
  · simp only [h1, if_false, Bool.false_eq_true]
    exact ⟨rfl, r1⟩

/-- The `match_whitespace_statement` member respects lexeme-agnosticism. -/
theorem match_whitespace_statement_rel {s t : PState} (h : LexRel s t) :
    LexRelB (match_whitespace_statement s) (match_whitespace_statement t) := by
  obtain ⟨e1, r1⟩ := match_keyword_rel ['%', 'w', 'h', 'i', 't', 'e', 's', 'p', 'a', 'c', 'e'] h
  simp only [match_whitespace_statement, e1]
  by_cases h1 : (match_keyword ['%', 'w', 'h', 'i', 't', 'e', 's', 'p', 'a', 'c', 'e'] t).1 = true
  · simp only [h1, if_true]
    have hws := emit_rel GEvent.whitespace r1
    obtain ⟨⟨e2, r2⟩, hl2⟩ := match_regex_rel hws
    simp only [e2]
    by_cases h2 : (match_regex (emit GEvent.whitespace (match_keyword ['%', 'w', 'h', 'i', 't', 'e', 's', 'p', 'a', 'c', 'e'] t).2)).1 = true
    · simp only [h2, if_true]
      refine ⟨rfl, (expect_rel [';'] (emit_lex_rel GEvent.regex r2 (hl2 ?_))).2⟩
      rw [e2]
      exact h2
    · simp only [h2, if_false, Bool.false_eq_true]
      exact ⟨rfl, (expect_rel [';'] r2).2⟩
  · simp only [h1, if_false, Bool.false_eq_true]
    exact ⟨rfl, r1⟩

/-- The `match_production_statement` member respects lexeme-agnosticism. -/
theorem match_production_statement_rel {s t : PState} (h : LexRel s t) :
    LexRelB (match_production_statement s) (match_production_statement t) := by
  obtain ⟨⟨e1, r1⟩, hl1⟩ := match_identifier_rel h
  simp only [match_production_statement, e1]
  by_cases h1 : (match_identifier t).1 = true
  · simp only [h1, if_true]
    have hp : LexRel (emit (GEvent.production (match_identifier s).2.lexeme (match_identifier s).2.line) (match_identifier s).2)
        (emit (GEvent.production (match_identifier t).2.lexeme (match_identifier t).2.line) (match_identifier t).2) := by
      refine emit_lex_rel GEvent.production r1 (hl1 ?_)
      rw [e1]
      exact h1
    exact ⟨rfl, emit_rel GEvent.endProduction
      (expect_rel [';'] (match_expressions_rel (expect_rel [':'] hp).2)).2⟩
  · simp only [h1, if_false, Bool.false_eq_true]
    exact ⟨rfl, r1⟩

/-- The `match_statement` member respects lexeme-agnosticism. -/
theorem match_statement_rel {s t : PState} (h : LexRel s t) :
    LexRelB (match_statement s) (match_statement t) := by
  obtain ⟨e1, r1⟩ := match_associativity_statement_rel h
  simp only [match_statement, e1]
  by_cases h1 : (match_associativity_statement t).1 = true
  · simp only [h1, if_true]
    exact ⟨rfl, r1⟩
  · simp only [h1, if_false, Bool.false_eq_true]
    obtain ⟨e2, r2⟩ := match_whitespace_statement_rel r1
    simp only [e2]
    by_cases h2 : (match_whitespace_statement (match_associativity_statement t).2).1 = true
    · simp only [h2, if_true]
      exact ⟨rfl, r2⟩
    · simp only [h2, if_false, Bool.false_eq_true]
      exact match_production_statement_rel r2

/-- The statements loop respects lexeme-agnosticism. -/
theorem matchStatementsAux_rel (fuel : Nat) : ∀ {s t : PState}, LexRel s t →
    LexRel (matchStatementsAux fuel s) (matchStatementsAux fuel t) := by
  induction fuel with
  | zero => intro s t h; exact h
  | succ n ih =>
    intro s t h
    obtain ⟨e1, r1⟩ := match_statement_rel h
    simp only [matchStatementsAux, e1]
    by_cases h1 : (match_statement t).1 = true
    · simp only [h1, if_true]
      exact ih r1
    · simp only [h1, if_false, Bool.false_eq_true]
      exact r1

/-- The `match_statements` member respects lexeme-agnosticism. -/
theorem match_statements_rel {s t : PState} (h : LexRel s t) :
    LexRel (match_statements s) (match_statements t) := by
  simp only [match_statements, h.1]
  exact matchStatementsAux_rel _ h

/-- The `match_grammar` member respects lexeme-agnosticism. -/
theorem match_grammar_rel {s t : PState} (h : LexRel s t) :
    LexRelB (match_grammar s) (match_grammar t) := by
  obtain ⟨⟨e1, r1⟩, hl1⟩ := match_identifier_rel h
  simp only [match_grammar, e1]
  by_cases h1 : (match_identifier t).1 = true
  · simp only [h1, if_true]
    have hg : LexRel (emit (GEvent.grammarName (match_identifier s).2.lexeme) (match_identifier s).2)
        (emit (GEvent.grammarName (match_identifier t).2.lexeme) (match_identifier t).2) := by
      have := hl1 (by rw [e1]; exact h1)
      rw [this]
      exact emit_rel _ r1
    exact match_end_rel
      (expect_rel ['}'] (match_statements_rel (expect_rel ['{'] hg).2)).2
  · simp only [h1, if_false, Bool.false_eq_true]
    exact ⟨rfl, r1⟩

/-- C7: grammar-source parsing is deterministic.  `parse` resets the
position, line and error count at entry, and the one member it does not
reset — the `lexeme_` buffer, here the extra parameter — cannot influence
the outcome: for identical character ranges, two runs return the same
error count, report the same errors, and drive the same sequence of
grammar-builder events. -/
theorem C7_parse_deterministic (input l1 l2 : List Char) :
    (parse input l1).1 = (parse input l2).1 ∧
    (parse input l1).2.errors = (parse input l2).2.errors ∧
    (parse input l1).2.events = (parse input l2).2.events := by
  have h0 : LexRel { rest := input, line := 1, lexeme := l1, errors := [], events := [] }
      { rest := input, line := 1, lexeme := l2, errors := [], events := [] } :=
    ⟨rfl, rfl, rfl, rfl⟩
  obtain ⟨e1, r1⟩ := match_grammar_rel h0
  simp only [parse, e1]
  by_cases h1 : (match_grammar { rest := input, line := 1, lexeme := l2, errors := [], events := [] }).1 = true
  · simp only [h1, if_true]
    exact ⟨by rw [r1.2.2.1], r1.2.2.1, r1.2.2.2⟩
  · simp only [h1, if_false, Bool.false_eq_true]
    refine ⟨?_, ?_, ?_⟩
    · simp only [reportError, r1.2.2.1]
    · simp only [reportError, r1.2.2.1]
    · simp only [reportError]
      exact r1.2.2.2

set_option maxRecDepth 8192 in
set_option maxHeartbeats 2000000 in
/-- C6: for the left-associative arithmetic grammar of scenario 1, table
generation reports zero errors to the error collaborator and leaves zero
unresolved parse-table conflicts: every shift/reduce conflict of the
expression states is resolved by the declared precedences and
associativities. -/
theorem C6_scenario1_zero_conflicts :
    scenarioErrors = 0 ∧ scenarioConflicts = 0 := by
  constructor
  · decide
  · decide
